import Mathlib

/-!
A shallow embedding of the roguelike simulation engine from `src/main.rs`
(a Rust/libtcod dungeon crawler), together with theorems checking the
natural-language specification's claims against the code.

Machine integers (`i32`, `u32`, `usize`) are modelled as `Int`/`Nat`; the
program's arithmetic (hit points, damage, coordinates, experience) stays far
from the `i32` boundaries, so wrap-around never occurs on reachable values.
Random draws (`rand::thread_rng().gen_range`, `WeightedChoice`) are passed in
explicitly as function arguments or draw lists. The tcod field-of-view map is
passed as a boolean oracle over coordinates, exactly as the code consumes it
through `fov.is_in_fov`.
-/

/-- RGB color triple, standing in for `tcod::colors::Color`.  The named
constants below mirror the libtcod palette entries the source refers to;
their concrete channel values live in the external tcod crate and are
irrelevant to every claim (only identity of constants matters). -/
structure Color where
  r : Nat
  g : Nat
  b : Nat
deriving DecidableEq, Repr

def RED : Color := ⟨255, 0, 0⟩
def DARK_RED : Color := ⟨191, 0, 0⟩
def ORANGE : Color := ⟨255, 127, 0⟩
def DARKER_ORANGE : Color := ⟨191, 95, 0⟩
def YELLOW : Color := ⟨255, 255, 0⟩
def LIGHT_YELLOW : Color := ⟨255, 255, 63⟩
def GREEN : Color := ⟨0, 255, 0⟩
def LIGHT_GREEN : Color := ⟨63, 255, 63⟩
def DARKER_GREEN : Color := ⟨0, 191, 0⟩
def DESATURATED_GREEN : Color := ⟨63, 127, 63⟩
def LIGHT_BLUE : Color := ⟨63, 63, 255⟩
def LIGHT_VIOLET : Color := ⟨159, 63, 255⟩
def VIOLET : Color := ⟨127, 0, 255⟩
def LIGHT_CYAN : Color := ⟨63, 255, 255⟩
def SKY : Color := ⟨0, 191, 255⟩
def WHITE : Color := ⟨255, 255, 255⟩

/-- `enum DeathCallback { Player, Monster }`. -/
inductive DeathCallback where
  | player
  | monster
deriving DecidableEq, Repr

/-- `struct Fighter { hp, base_max_hp, base_defense, base_power, on_death, xp }`. -/
structure Fighter where
  hp : Int
  base_max_hp : Int
  base_defense : Int
  base_power : Int
  on_death : DeathCallback
  xp : Int
deriving DecidableEq, Repr

/-- `enum Ai { Basic, Confused { previous_ai: Box<Ai>, num_turns: i32 } }`.
The `Box` indirection is ownership plumbing; recursion is direct here. -/
inductive Ai where
  | basic
  | confused (previous_ai : Ai) (num_turns : Int)
deriving DecidableEq, Repr

/-- `enum Item { Heal, Lightning, Confuse, Fireball, Sword, Shield }`. -/
inductive Item where
  | heal
  | lightning
  | confuse
  | fireball
  | sword
  | shield
deriving DecidableEq, Repr

/-- `enum Slot { LeftHand, RightHand, Head }`. -/
inductive Slot where
  | leftHand
  | rightHand
  | head
deriving DecidableEq, Repr

/-- `impl Display for Slot`. -/
def slotName : Slot → String
  | Slot.leftHand => "left hand"
  | Slot.rightHand => "right hand"
  | Slot.head => "head"

/-- `struct Equipment { slot, equipped, max_hp_bonus, power_bonus, defense_bonus }`. -/
structure Equipment where
  slot : Slot
  equipped : Bool
  max_hp_bonus : Int
  power_bonus : Int
  defense_bonus : Int
deriving DecidableEq, Repr

/-- `struct Object` — the entity record (position, glyph, name, flags and the
four optional capability records). -/
structure Object where
  x : Int
  y : Int
  char : Char
  color : Color
  name : String
  blocks : Bool
  alive : Bool
  fighter : Option Fighter
  ai : Option Ai
  item : Option Item
  always_visible : Bool
  level : Int
  equipment : Option Equipment
deriving DecidableEq, Repr

/-- `struct Tile { blocked, block_sight, explored }`. -/
structure Tile where
  blocked : Bool
  block_sight : Bool
  explored : Bool
deriving DecidableEq, Repr

/-- `Tile::empty()`. -/
def Tile.empty : Tile := ⟨false, false, false⟩

/-- `Tile::wall()`. -/
def Tile.wall : Tile := ⟨true, true, false⟩

/-- `type Map = Vec<Vec<Tile>>` (indexed `map[x][y]`). -/
abbrev GameMap : Type := List (List Tile)

/-- `type Messages = Vec<(String, Color)>`. -/
abbrev Messages : Type := List (String × Color)

/-- `struct Game { map, log, inventory, dungeon_level }`. -/
structure Game where
  map : GameMap
  log : Messages
  inventory : List Object
  dungeon_level : Nat
deriving DecidableEq

def MSG_HEIGHT : Nat := 6
def HEAL_AMOUNT : Int := 40
def LEVEL_UP_BASE : Int := 200
def LEVEL_UP_FACTOR : Int := 150
def LIGHTNING_DAMAGE : Int := 40
def LIGHTNING_RANGE : Int := 5

/-- `MessageLog::add`: drop the oldest line when the log is at capacity
(`MSG_HEIGHT`), then push the new `(message, color)` line. -/
def addMsg (log : Messages) (m : String) (c : Color) : Messages :=
  if List.length log = MSG_HEIGHT then List.tail log ++ [(m, c)]
  else log ++ [(m, c)]

/-- `fn player_death`: log "You died!", turn the player's glyph into remains.
The Fighter record is left in place. -/
def playerDeath (o : Object) (g : Game) : Object × Game :=
  ({o with char := '%', color := DARK_RED},
   {g with log := addMsg g.log "You died!" RED})

/-- `fn monster_death`: log the xp message, convert the monster in place into
inert remains — glyph `%`, non-blocking, `fighter` and `ai` cleared, name
annotated.  The source unwraps `monster.fighter` for the xp figure; the
`none` branch is unreachable from `take_damage`, which only invokes the
callback while the Fighter record is present. -/
def monsterDeath (o : Object) (g : Game) : Object × Game :=
  match o.fighter with
  | some f =>
      let msg := o.name ++ " is dead! You gain " ++ toString f.xp ++
        " experience points."
      ({o with char := '%', color := DARK_RED, blocks := false,
               fighter := none, ai := none,
               name := "remains of " ++ o.name},
       {g with log := addMsg g.log msg ORANGE})
  | none => (o, g)

/-- `DeathCallback::callback`: dispatch to the death handler. -/
def DeathCallback.callback : DeathCallback → Object → Game → Object × Game
  | DeathCallback.player, o, g => playerDeath o g
  | DeathCallback.monster, o, g => monsterDeath o g

/-- `Object::take_damage`: apply damage to the Fighter's hp (only when
`damage > 0`), then — if the (possibly updated) Fighter's hp is ≤ 0 — mark
the object dead, run the death callback and return the Fighter's xp reward. -/
def takeDamage (o : Object) (damage : Int) (g : Game) :
    Object × Game × Option Int :=
  let o1 :=
    match o.fighter with
    | some f =>
        if damage > 0 then {o with fighter := some {f with hp := f.hp - damage}}
        else o
    | none => o
  match o1.fighter with
  | some f =>
      if f.hp ≤ 0 then
        let od := {o1 with alive := false}
        let og := f.on_death.callback od g
        (og.1, og.2, some f.xp)
      else (o1, g, none)
  | none => (o1, g, none)

def emptyGame : Game := ⟨[], [], [], 1⟩

/-- A player object that has already died: hp at 0, `alive` already false,
glyph already turned to remains — the state `player_death` leaves behind. -/
def deadPlayer : Object :=
  { x := 0, y := 0, char := '%', color := DARK_RED, name := "player",
    blocks := true, alive := false,
    fighter := some { hp := 0, base_max_hp := 100, base_defense := 1,
                      base_power := 2, on_death := DeathCallback.player,
                      xp := 7 },
    ai := none, item := none, always_visible := false, level := 1,
    equipment := none }

/-- An orc exactly as `place_objects` builds it (hp 20, def 0, pow 4, xp 35). -/
def orcObj : Object :=
  { x := 3, y := 4, char := 'o', color := DESATURATED_GREEN, name := "orc",
    blocks := true, alive := true,
    fighter := some { hp := 20, base_max_hp := 20, base_defense := 0,
                      base_power := 4, on_death := DeathCallback.monster,
                      xp := 35 },
    ai := some Ai.basic, item := none, always_visible := false, level := 1,
    equipment := none }

theorem takeDamage_no_fighter (o : Object) (d : Int) (g : Game)
    (h : o.fighter = none) : takeDamage o d g = (o, g, none) := by
  simp [takeDamage, h]

/-- C1, counterexample: the claim fails for the player.  `player_death` leaves
the Fighter record in place, so a further `take_damage` call on a player whose
hp is already ≤ 0 re-enters the death branch: it logs a second "You died!"
message and returns the xp reward again. -/
theorem c1_player_death_retriggers :
    deadPlayer.fighter.map Fighter.hp = some 0 ∧ deadPlayer.alive = false ∧
    (takeDamage deadPlayer 1 emptyGame).2.2 = some 7 ∧
    (takeDamage deadPlayer 1 emptyGame).2.1.log = [("You died!", RED)] :=
  ⟨rfl, rfl, rfl, rfl⟩

/-- C1, amended: the death transition runs at most once for every entity whose
death callback is `Monster` — that callback clears the Fighter record, so any
later `take_damage` call returns no xp reward, logs nothing and changes
nothing.  (The player's callback keeps the Fighter, so the guarantee does not
extend to the player.) -/
theorem c1_monster_death_at_most_once
    (o : Object) (f : Fighter) (d d2 : Int) (g g2 : Game)
    (hf : o.fighter = some f) (hm : f.on_death = DeathCallback.monster)
    (hk : ((takeDamage o d g).2.2).isSome = true) :
    (takeDamage o d g).1.fighter = none ∧
    takeDamage (takeDamage o d g).1 d2 g2 = ((takeDamage o d g).1, g2, none) := by
  have hfst : (takeDamage o d g).1.fighter = none := by
    by_cases hd : d > 0
    · by_cases hhp : f.hp ≤ d
      · simp [takeDamage, hf, hd, hhp, sub_nonpos, DeathCallback.callback, hm,
          monsterDeath]
      · exfalso
        simp [takeDamage, hf, hd, sub_nonpos, hhp] at hk
    · by_cases hhp : f.hp ≤ 0
      · simp [takeDamage, hf, hd, hhp, DeathCallback.callback, hm, monsterDeath]
      · exfalso
        simp [takeDamage, hf, hd, hhp] at hk
  exact ⟨hfst, takeDamage_no_fighter _ d2 g2 hfst⟩

/-- C1 witness: a fresh orc killed by 40 damage; afterwards its Fighter is
gone and a second hit is a no-op. -/
theorem c1_monster_death_at_most_once_witness :
    (takeDamage orcObj 40 emptyGame).1.fighter = none ∧
    takeDamage (takeDamage orcObj 40 emptyGame).1 5 emptyGame =
      ((takeDamage orcObj 40 emptyGame).1, emptyGame, none) :=
  c1_monster_death_at_most_once orcObj _ 40 5 emptyGame emptyGame rfl rfl (by decide)

/-- `map[x as usize][y as usize]` — out-of-range access panics in the source;
here it yields a wall tile (all in-game accesses are in range). -/
def tileAt (m : GameMap) (x y : Int) : Tile :=
  (List.getD m x.toNat []).getD y.toNat Tile.wall

/-- `fn is_blocked`: the tile is blocked, or some blocking object stands on
the cell. -/
def isBlocked (x y : Int) (map : GameMap) (objects : List Object) : Bool :=
  if (tileAt map x y).blocked then true
  else objects.any fun o => o.blocks && o.x == x && o.y == y

/-- `objects[id].name` (panics when out of range in the source). -/
def nameAt (objects : List Object) (id : Nat) : String :=
  ((objects.get? id).map Object.name).getD ""

/-- `fn move_by`: step object `id` by `(dx, dy)` unless the destination is
blocked; blocked moves are silently dropped. -/
def moveBy (id : Nat) (dx dy : Int) (map : GameMap) (objects : List Object) :
    List Object :=
  match objects.get? id with
  | some o =>
      if ¬ isBlocked (o.x + dx) (o.y + dy) map objects then
        objects.set id {o with x := o.x + dx, y := o.y + dy}
      else objects
  | none => objects

/-- `fn ai_confused`: while `num_turns ≥ 0`, take one random step (`dx`, `dy`
are the two `gen_range(-1, 2)` draws) and stay `Confused` with the counter
decremented; once `num_turns < 0`, log the "no longer confused" message and
return the unwrapped previous AI.  Returns (objects, game, new AI state). -/
def aiConfused (monsterId : Nat) (objects : List Object) (g : Game)
    (previousAi : Ai) (numTurns : Int) (dx dy : Int) :
    List Object × Game × Ai :=
  if numTurns ≥ 0 then
    (moveBy monsterId dx dy g.map objects, g,
     Ai.confused previousAi (numTurns - 1))
  else
    let msg := "The " ++ nameAt objects monsterId ++ " is no longer confused!"
    (objects, {g with log := addMsg g.log msg RED}, previousAi)

/-- `Object::get_all_equipped`: the player draws bonuses from every equipped
inventory item; everyone else gets none.  (The filtered items all carry an
Equipment record, so the source's `unwrap` is the `filterMap` here.) -/
def getAllEquipped (o : Object) (g : Game) : List Equipment :=
  if o.name = "player" then
    ((g.inventory.filter fun it =>
        (it.equipment.map Equipment.equipped).getD false).filterMap
      Object.equipment)
  else []

/-- `Object::power`: base power plus equipped power bonuses. -/
def power (o : Object) (g : Game) : Int :=
  (o.fighter.map Fighter.base_power).getD 0 +
    ((getAllEquipped o g).map Equipment.power_bonus).sum

/-- `Object::defense`: base defense plus equipped defense bonuses. -/
def defense (o : Object) (g : Game) : Int :=
  (o.fighter.map Fighter.base_defense).getD 0 +
    ((getAllEquipped o g).map Equipment.defense_bonus).sum

/-- `Object::max_hp`: base max hp plus equipped max-hp bonuses. -/
def maxHp (o : Object) (g : Game) : Int :=
  (o.fighter.map Fighter.base_max_hp).getD 0 +
    ((getAllEquipped o g).map Equipment.max_hp_bonus).sum

/-- `self.fighter.as_mut().unwrap().xp += xp` (the attacker always has a
Fighter at this point; without one the source would panic). -/
def addXpToFighter (o : Object) (xp : Int) : Object :=
  match o.fighter with
  | some f => {o with fighter := some {f with xp := f.xp + xp}}
  | none => o

/-- `Object::attack`: damage = attacker power − defender defense; positive
damage is logged and applied via `take_damage` (killing transfers the xp
reward back to the attacker); otherwise the "no effect" message is logged
and nothing changes.  Returns (attacker, target, game). -/
def attack (attacker target : Object) (g : Game) : Object × Object × Game :=
  let damage := power attacker g - defense target g
  if damage > 0 then
    let msg := attacker.name ++ " attacks " ++ target.name ++ " for " ++
      toString damage ++ " hit points."
    let g1 := {g with log := addMsg g.log msg WHITE}
    let r := takeDamage target damage g1
    match r.2.2 with
    | some xp => (addXpToFighter attacker xp, r.1, r.2.1)
    | none => (attacker, r.1, r.2.1)
  else
    let msg := attacker.name ++ " attacks " ++ target.name ++
      " but it has no effect!"
    (attacker, target, {g with log := addMsg g.log msg WHITE})

/-- The stat the player picks from the level-up menu (the source loops the
menu until a choice is made; the chosen index is an input here). -/
inductive LevelUpChoice where
  | constitution
  | strength
  | agility
deriving DecidableEq, Repr

/-- `fn level_up`: threshold is `LEVEL_UP_BASE + player.level * LEVEL_UP_FACTOR`;
when the player's accumulated xp reaches it, increment `level`, log the
message, subtract the threshold from xp and apply the chosen stat raise.
The player is `objects[PLAYER]`, i.e. the head of the list. -/
def levelUp (objects : List Object) (g : Game) (choice : LevelUpChoice) :
    List Object × Game :=
  match objects with
  | [] => ([], g)
  | player :: rest =>
      let levelUpXp := LEVEL_UP_BASE + player.level * LEVEL_UP_FACTOR
      if ((player.fighter.map Fighter.xp).getD 0) ≥ levelUpXp then
        match player.fighter with
        | some f =>
            let msg := "Your battle skills grow stronger! You reached level " ++
              toString (player.level + 1) ++ "!"
            let g1 := {g with log := addMsg g.log msg YELLOW}
            let f1 := {f with xp := f.xp - levelUpXp}
            let f2 :=
              match choice with
              | LevelUpChoice.constitution =>
                  {f1 with base_max_hp := f1.base_max_hp + 20, hp := f1.hp + 20}
              | LevelUpChoice.strength =>
                  {f1 with base_power := f1.base_power + 1}
              | LevelUpChoice.agility =>
                  {f1 with base_defense := f1.base_defense + 1}
            ({player with level := player.level + 1, fighter := some f2} :: rest,
             g1)
        | none => (player :: rest, g)
      else (player :: rest, g)
/-- The "no longer confused" message text of `ai_confused`. -/
def noLongerConfusedMsg (objects : List Object) (id : Nat) : String :=
  "The " ++ nameAt objects id ++ " is no longer confused!"

/-- C4: starting from a `Confused` AI with `remaining_turns = 2`, the next
three AI evaluations (at counter values 2, 1 and 0) each take exactly one
random step — the two axis deltas are independent `gen_range(-1, 2)` draws
from {−1, 0, 1} — and decrement the counter; the 4th evaluation (counter −1)
moves nothing, logs the "no longer confused" message and returns the stored
previous AI itself (the boxed payload is unwrapped, not cloned). -/
theorem c4_confused_three_random_steps
    (id : Nat) (objs : List Object) (g : Game) (prev : Ai)
    (d1x d1y d2x d2y d3x d3y d4x d4y : Int)
    (hd1x : -1 ≤ d1x ∧ d1x < 2) (hd1y : -1 ≤ d1y ∧ d1y < 2)
    (hd2x : -1 ≤ d2x ∧ d2x < 2) (hd2y : -1 ≤ d2y ∧ d2y < 2)
    (hd3x : -1 ≤ d3x ∧ d3x < 2) (hd3y : -1 ≤ d3y ∧ d3y < 2) :
    (let objs1 := moveBy id d1x d1y g.map objs
     let objs2 := moveBy id d2x d2y g.map objs1
     let objs3 := moveBy id d3x d3y g.map objs2
     let gmsg := {g with
       log := addMsg g.log (noLongerConfusedMsg objs3 id) RED}
     aiConfused id objs g prev 2 d1x d1y = (objs1, g, Ai.confused prev 1) ∧
     aiConfused id objs1 g prev 1 d2x d2y = (objs2, g, Ai.confused prev 0) ∧
     aiConfused id objs2 g prev 0 d3x d3y =
       (objs3, g, Ai.confused prev (-1)) ∧
     aiConfused id objs3 g prev (-1) d4x d4y = (objs3, gmsg, prev)) := by
  refine ⟨?_, ?_, ?_, ?_⟩ <;> simp [aiConfused, noLongerConfusedMsg]

/-- A tiny all-floor 2×2 map for concrete evaluations. -/
def floorMap : GameMap :=
  [[Tile.empty, Tile.empty], [Tile.empty, Tile.empty]]

def confusedOrcGame : Game := ⟨floorMap, [], [], 1⟩

/-- C4 witness: a concrete orc on a 2×2 floor with concrete draws. -/
theorem c4_confused_three_random_steps_witness :
    (let objs1 := moveBy 0 1 0 confusedOrcGame.map [orcObj]
     let objs2 := moveBy 0 0 1 confusedOrcGame.map objs1
     let objs3 := moveBy 0 (-1) 0 confusedOrcGame.map objs2
     let gmsg := {confusedOrcGame with
       log := addMsg confusedOrcGame.log (noLongerConfusedMsg objs3 0) RED}
     aiConfused 0 [orcObj] confusedOrcGame Ai.basic 2 1 0 =
       (objs1, confusedOrcGame, Ai.confused Ai.basic 1) ∧
     aiConfused 0 objs1 confusedOrcGame Ai.basic 1 0 1 =
       (objs2, confusedOrcGame, Ai.confused Ai.basic 0) ∧
     aiConfused 0 objs2 confusedOrcGame Ai.basic 0 (-1) 0 =
       (objs3, confusedOrcGame, Ai.confused Ai.basic (-1)) ∧
     aiConfused 0 objs3 confusedOrcGame Ai.basic (-1) 0 0 =
       (objs3, gmsg, Ai.basic)) :=
  c4_confused_three_random_steps 0 [orcObj] confusedOrcGame Ai.basic
    1 0 0 1 (-1) 0 0 0 (by decide) (by decide) (by decide) (by decide)
    (by decide) (by decide)

/-- The level-up announcement text. -/
def levelUpMsg (newLevel : Int) : String :=
  "Your battle skills grow stronger! You reached level " ++
    toString newLevel ++ "!"

/-- C5: the threshold is `200 + current_level * 150`; `level_up` levels the
player exactly when accumulated xp ≥ threshold, and then increments `level`
by 1, subtracts the threshold from xp, and applies the chosen stat raise
(Constitution: +20 base max hp and +20 hp; Strength: +1 base power;
Agility: +1 base defense). -/
theorem c5_level_up_threshold
    (p : Object) (rest : List Object) (g : Game) (c : LevelUpChoice)
    (f : Fighter) (hf : p.fighter = some f) :
    (LEVEL_UP_BASE + p.level * LEVEL_UP_FACTOR = 200 + p.level * 150) ∧
    (f.xp < LEVEL_UP_BASE + p.level * LEVEL_UP_FACTOR →
      levelUp (p :: rest) g c = (p :: rest, g)) ∧
    (let t := LEVEL_UP_BASE + p.level * LEVEL_UP_FACTOR
     let g1 := {g with log := addMsg g.log (levelUpMsg (p.level + 1)) YELLOW}
     (t ≤ f.xp → c = LevelUpChoice.constitution →
       levelUp (p :: rest) g c =
         (let f2 := {f with xp := f.xp - t, base_max_hp := f.base_max_hp + 20, hp := f.hp + 20}
          ({p with level := p.level + 1, fighter := some f2} :: rest, g1))) ∧
     (t ≤ f.xp → c = LevelUpChoice.strength →
       levelUp (p :: rest) g c =
         (let f2 := {f with xp := f.xp - t, base_power := f.base_power + 1}
          ({p with level := p.level + 1, fighter := some f2} :: rest, g1))) ∧
     (t ≤ f.xp → c = LevelUpChoice.agility →
       levelUp (p :: rest) g c =
         (let f2 := {f with xp := f.xp - t, base_defense := f.base_defense + 1}
          ({p with level := p.level + 1, fighter := some f2} :: rest, g1)))) := by
  refine ⟨rfl, ?_, ?_, ?_, ?_⟩
  · intro hlt
    have h2 : ¬ ((p.fighter.map Fighter.xp).getD 0 ≥
        LEVEL_UP_BASE + p.level * LEVEL_UP_FACTOR) := by
      simp [hf]; omega
    have h3 : ¬ (LEVEL_UP_BASE + p.level * LEVEL_UP_FACTOR ≤ f.xp) := by omega
    simp [levelUp, h2, h3]
  all_goals
    intro hge hc
    subst hc
    have hx : ((p.fighter.map Fighter.xp).getD 0 ≥
        LEVEL_UP_BASE + p.level * LEVEL_UP_FACTOR) := by simp [hf]; omega
    simp [levelUp, hx, hge, hf, levelUpMsg]

/-- A level-1 player with a given xp total, as `new_game` builds the player
(hp 100, defense 1, power 2). -/
def playerWithXp (xp : Int) : Object :=
  { x := 0, y := 0, char := '@', color := WHITE, name := "player",
    blocks := true, alive := true,
    fighter := some { hp := 100, base_max_hp := 100, base_defense := 1,
                      base_power := 2, on_death := DeathCallback.player,
                      xp := xp },
    ai := none, item := none, always_visible := false, level := 1,
    equipment := none }

/-- C5 witness: at level 1, xp 349 stays below the 350 threshold (no change);
xp 350 meets it and one level-up consumes all 350 xp. -/
theorem c5_level_up_threshold_witness :
    (levelUp [playerWithXp 349] emptyGame LevelUpChoice.strength =
      ([playerWithXp 349], emptyGame)) ∧
    (levelUp [playerWithXp 350] emptyGame LevelUpChoice.strength =
      (let f2 : Fighter := { hp := 100, base_max_hp := 100, base_defense := 1, base_power := 3, on_death := DeathCallback.player, xp := 0 }
       ([{playerWithXp 350 with level := 2, fighter := some f2}],
        {emptyGame with log := addMsg emptyGame.log (levelUpMsg 2) YELLOW}))) := by
  constructor
  · exact (c5_level_up_threshold (playerWithXp 349) [] emptyGame
      LevelUpChoice.strength _ rfl).2.1 (by decide)
  · have h := ((c5_level_up_threshold (playerWithXp 350) [] emptyGame
      LevelUpChoice.strength _ rfl).2.2).2.1 (by decide) rfl
    simpa using h

/-- The combat messages of `Object::attack`. -/
def attackHitMsg (a t : Object) (damage : Int) : String :=
  a.name ++ " attacks " ++ t.name ++ " for " ++ toString damage ++
    " hit points."

def attackNoEffectMsg (a t : Object) : String :=
  a.name ++ " attacks " ++ t.name ++ " but it has no effect!"

/-- C6: attack damage is attacker effective power minus defender effective
defense.  If damage ≤ 0 nothing changes and the "no effect" message is
logged; if damage > 0 (and the blow is not lethal) the defender's hp drops
by exactly that amount and the hit message is logged. -/
theorem c6_attack_damage_arithmetic
    (a t : Object) (g : Game) (f : Fighter) (hf : t.fighter = some f) :
    (power a g - defense t g ≤ 0 →
      attack a t g =
        (a, t, {g with log := addMsg g.log (attackNoEffectMsg a t) WHITE})) ∧
    (0 < power a g - defense t g →
      0 < f.hp - (power a g - defense t g) →
      (attack a t g).2.1 =
        {t with fighter := some {f with hp := f.hp - (power a g - defense t g)}} ∧
      (attack a t g).2.2 =
        {g with log := addMsg g.log (attackHitMsg a t (power a g - defense t g)) WHITE} ∧
      (attack a t g).1 = a) := by
  constructor
  · intro hle
    have hnd : ¬ (0 < power a g - defense t g) := not_lt.mpr hle
    simp [attack, hnd, attackNoEffectMsg]
  · intro hgt hsurv
    have hns : ¬ (f.hp - (power a g - defense t g) ≤ 0) := by omega
    have hns2 : ¬ (f.hp ≤ power a g - defense t g) := by omega
    refine ⟨?_, ?_, ?_⟩ <;>
      simp [attack, hgt, takeDamage, hf, hns, hns2, sub_nonpos, attackHitMsg]

/-- A melee brute with given base power/defense and hp, no equipment (its
name is not "player", so `get_all_equipped` contributes nothing). -/
def bruteObj (name : String) (hp pow dfn : Int) : Object :=
  { x := 0, y := 0, char := 'b', color := WHITE, name := name,
    blocks := true, alive := true,
    fighter := some { hp := hp, base_max_hp := hp, base_defense := dfn,
                      base_power := pow, on_death := DeathCallback.monster,
                      xp := 10 },
    ai := some Ai.basic, item := none, always_visible := false, level := 1,
    equipment := none }

/-- C6 witness: power 10 vs defense 12 — no hp change, "no effect" message;
power 10 vs defense 3 — hp reduced by exactly 7. -/
theorem c6_attack_damage_arithmetic_witness :
    (attack (bruteObj "atk" 30 10 0) (bruteObj "hi-def" 30 0 12) emptyGame =
      ((bruteObj "atk" 30 10 0), (bruteObj "hi-def" 30 0 12),
       {emptyGame with log := addMsg emptyGame.log (attackNoEffectMsg (bruteObj "atk" 30 10 0) (bruteObj "hi-def" 30 0 12)) WHITE})) ∧
    ((attack (bruteObj "atk" 30 10 0) (bruteObj "lo-def" 30 0 3) emptyGame).2.1.fighter.map
        Fighter.hp = some 23) := by
  constructor
  · exact (c6_attack_damage_arithmetic (bruteObj "atk" 30 10 0)
      (bruteObj "hi-def" 30 0 12) emptyGame _ rfl).1 (by decide)
  · have h := ((c6_attack_damage_arithmetic (bruteObj "atk" 30 10 0)
      (bruteObj "lo-def" 30 0 3) emptyGame _ rfl).2 (by decide) (by decide)).1
    rw [h]
    decide

/-- `struct Rect` with `Rect::new(x, y, w, h)` storing corners. -/
structure Rect where
  x1 : Int
  y1 : Int
  x2 : Int
  y2 : Int
deriving DecidableEq, Repr

def Rect.new (x y w h : Int) : Rect := ⟨x, y, x + w, y + h⟩

/-- `Rect::center`. -/
def Rect.center (r : Rect) : Int × Int := ((r.x1 + r.x2) / 2, (r.y1 + r.y2) / 2)

/-- `Rect::intersects_with` (closed-rectangle overlap; touching counts). -/
def Rect.intersectsWith (a b : Rect) : Bool :=
  decide (a.x1 ≤ b.x2) && decide (a.x2 ≥ b.x1) &&
    decide (a.y1 ≤ b.y2) && decide (a.y2 ≥ b.y1)

/-- The room-acceptance step of `make_map`'s loop: a candidate intersecting
any previously accepted rectangle is rejected, otherwise it is accepted
(carving and corridors touch only the tile grid, not the room list). -/
def acceptStep (rooms : List Rect) (newRoom : Rect) : List Rect :=
  if rooms.any fun otherRoom => newRoom.intersectsWith otherRoom then rooms
  else rooms ++ [newRoom]

/-- The accepted-room list `make_map` builds from a stream of sampled
candidate rectangles (the `MAX_ROOMS` iterations' draws). -/
def acceptRooms (candidates : List Rect) : List Rect :=
  candidates.foldl acceptStep []

theorem intersectsWith_comm (a b : Rect) :
    a.intersectsWith b = b.intersectsWith a := by
  rw [Bool.eq_iff_iff]
  simp only [Rect.intersectsWith, ge_iff_le, Bool.and_eq_true, decide_eq_true_eq]
  tauto

theorem acceptRooms_go
    (cs : List Rect) (acc : List Rect)
    (hacc : List.Pairwise (fun a b => a.intersectsWith b = false) acc) :
    List.Pairwise (fun a b => a.intersectsWith b = false)
      (List.foldl acceptStep acc cs) := by
  induction cs generalizing acc with
  | nil => exact hacc
  | cons c cs ih =>
      rw [List.foldl_cons]
      by_cases h : acc.any fun otherRoom => c.intersectsWith otherRoom
      · rw [show acceptStep acc c = acc by simp [acceptStep, h]]
        exact ih acc hacc
      · rw [show acceptStep acc c = acc ++ [c] by simp_all [acceptStep]]
        refine ih _ (List.pairwise_append.mpr ⟨hacc, List.pairwise_singleton _ _, ?_⟩)
        intro a ha b hb
        rw [List.mem_singleton] at hb
        subst hb
        rw [Bool.not_eq_true, List.any_eq_false] at h
        rw [intersectsWith_comm]
        exact Bool.eq_false_iff.mpr (h a ha)

/-- C9: for every sequence of candidate rectangle draws, the accepted rooms
of `make_map` are pairwise non-intersecting — a candidate that intersects a
previously accepted rectangle is rejected. -/
theorem c9_rooms_pairwise_disjoint (candidates : List Rect) :
    List.Pairwise (fun a b => a.intersectsWith b = false)
      (acceptRooms candidates) :=
  acceptRooms_go candidates [] (List.Pairwise.nil)

/-- The monster species the weighted table can draw. -/
inductive MonsterKind where
  | orc
  | troll
deriving DecidableEq, Repr

/-- The monster stat blocks of `place_objects` (`Object::new` then fighter,
ai and `alive = true`). -/
def mkMonster : MonsterKind → Int → Int → Object
  | MonsterKind.orc, x, y =>
      { x := x, y := y, char := 'o', color := DESATURATED_GREEN, name := "orc",
        blocks := true, alive := true,
        fighter := some { hp := 20, base_max_hp := 20, base_defense := 0,
                          base_power := 4, on_death := DeathCallback.monster,
                          xp := 35 },
        ai := some Ai.basic, item := none, always_visible := false,
        level := 1, equipment := none }
  | MonsterKind.troll, x, y =>
      { x := x, y := y, char := 'T', color := DARKER_GREEN, name := "troll",
        blocks := true, alive := true,
        fighter := some { hp := 30, base_max_hp := 30, base_defense := 2,
                          base_power := 8, on_death := DeathCallback.monster,
                          xp := 100 },
        ai := some Ai.basic, item := none, always_visible := false,
        level := 1, equipment := none }

/-- The item objects of `place_objects` (all non-blocking, `alive = false`;
sword and shield carry Equipment records). -/
def mkItemObject : Item → Int → Int → Object
  | Item.heal, x, y =>
      { x := x, y := y, char := '!', color := VIOLET, name := "healing potion",
        blocks := false, alive := false, fighter := none, ai := none,
        item := some Item.heal, always_visible := false, level := 1,
        equipment := none }
  | Item.lightning, x, y =>
      { x := x, y := y, char := '#', color := LIGHT_YELLOW,
        name := "scroll of lightning bolt",
        blocks := false, alive := false, fighter := none, ai := none,
        item := some Item.lightning, always_visible := false, level := 1,
        equipment := none }
  | Item.fireball, x, y =>
      { x := x, y := y, char := '#', color := LIGHT_YELLOW,
        name := "scroll of fireball",
        blocks := false, alive := false, fighter := none, ai := none,
        item := some Item.fireball, always_visible := false, level := 1,
        equipment := none }
  | Item.confuse, x, y =>
      { x := x, y := y, char := '#', color := LIGHT_YELLOW,
        name := "scroll of confusion",
        blocks := false, alive := false, fighter := none, ai := none,
        item := some Item.confuse, always_visible := false, level := 1,
        equipment := none }
  | Item.sword, x, y =>
      { x := x, y := y, char := '/', color := SKY, name := "sword",
        blocks := false, alive := false, fighter := none, ai := none,
        item := some Item.sword, always_visible := false, level := 1,
        equipment := some { slot := Slot.rightHand, equipped := false,
                            max_hp_bonus := 0, power_bonus := 3,
                            defense_bonus := 0 } }
  | Item.shield, x, y =>
      { x := x, y := y, char := '[', color := DARKER_ORANGE, name := "shield",
        blocks := false, alive := false, fighter := none, ai := none,
        item := some Item.shield, always_visible := false, level := 1,
        equipment := some { slot := Slot.leftHand, equipped := false,
                            max_hp_bonus := 0, power_bonus := 0,
                            defense_bonus := 1 } }

/-- The monster loop of `place_objects`: each iteration draws `(x, y)` inside
the room interior and a weighted species; the monster is pushed only when
the drawn cell is not blocked — a blocked draw is simply skipped, there is
no resampling loop in the source. -/
def placeMonsters (map : GameMap) (objects : List Object)
    (draws : List (Int × Int × MonsterKind)) : List Object :=
  draws.foldl
    (fun objs d =>
      if ¬ isBlocked d.1 d.2.1 map objs then objs ++ [mkMonster d.2.2 d.1 d.2.1]
      else objs)
    objects

/-- The item loop of `place_objects`, same placement discipline. -/
def placeItems (map : GameMap) (objects : List Object)
    (draws : List (Int × Int × Item)) : List Object :=
  draws.foldl
    (fun objs d =>
      if ¬ isBlocked d.1 d.2.1 map objs then
        objs ++ [mkItemObject d.2.2 d.1 d.2.1]
      else objs)
    objects

/-- `fn place_objects` for one room: the monster loop, then the item loop,
on the same object list. -/
def placeObjects (map : GameMap) (objects : List Object)
    (monsterDraws : List (Int × Int × MonsterKind))
    (itemDraws : List (Int × Int × Item)) : List Object :=
  placeItems map (placeMonsters map objects monsterDraws) itemDraws

/-- `gen_range(room.x1 + 1, room.x2)` / `gen_range(room.y1 + 1, room.y2)`:
the coordinate domain of every spawn draw. -/
def inRoomInterior (room : Rect) (x y : Int) : Prop :=
  room.x1 + 1 ≤ x ∧ x < room.x2 ∧ room.y1 + 1 ≤ y ∧ y < room.y2

instance (room : Rect) (x y : Int) : Decidable (inRoomInterior room x y) := by
  unfold inRoomInterior
  infer_instance

def wallMap3 : GameMap := List.replicate 3 (List.replicate 3 Tile.wall)

def floorMap3 : GameMap := List.replicate 3 (List.replicate 3 Tile.empty)

/-- C2, counterexample: a spawn draw landing on a blocked cell is *skipped*,
not resampled — the drawn monster count is 1 but no entity is placed.  (The
`for _ in 0..num_monsters` body of `place_objects` guards the push with a
single `if !is_blocked(..)`; there is no retry loop.) -/
theorem c2_blocked_draw_skipped :
    inRoomInterior (Rect.new 0 0 2 2) 1 1 ∧
    (tileAt wallMap3 1 1).blocked = true ∧
    placeObjects wallMap3 [] [(1, 1, MonsterKind.orc)] [] = [] := by
  refine ⟨by decide, by decide, by decide⟩

theorem isBlocked_false_tile (x y : Int) (map : GameMap)
    (objects : List Object) (h : isBlocked x y map objects = false) :
    (tileAt map x y).blocked = false := by
  cases hbt : (tileAt map x y).blocked
  · rfl
  · rw [isBlocked, hbt] at h
    simp at h

theorem mkMonster_x (k : MonsterKind) (x y : Int) : (mkMonster k x y).x = x := by
  cases k <;> rfl

theorem mkMonster_y (k : MonsterKind) (x y : Int) : (mkMonster k x y).y = y := by
  cases k <;> rfl

theorem mkItemObject_x (k : Item) (x y : Int) : (mkItemObject k x y).x = x := by
  cases k <;> rfl

theorem mkItemObject_y (k : Item) (x y : Int) : (mkItemObject k x y).y = y := by
  cases k <;> rfl

theorem placeMonsters_extra (map : GameMap) (objects : List Object)
    (draws : List (Int × Int × MonsterKind)) :
    ∃ extra, placeMonsters map objects draws = objects ++ extra ∧
      ∀ o ∈ extra, (tileAt map o.x o.y).blocked = false ∧
        ∃ d ∈ draws, o.x = d.1 ∧ o.y = d.2.1 := by
  induction draws generalizing objects with
  | nil => exact ⟨[], by simp [placeMonsters]⟩
  | cons d rest ih =>
      have step : ∀ start : List Object, placeMonsters map start rest =
          List.foldl (fun objs e =>
            if ¬ isBlocked e.1 e.2.1 map objs then
              objs ++ [mkMonster e.2.2 e.1 e.2.1]
            else objs) start rest := fun _ => rfl
      by_cases hb : isBlocked d.1 d.2.1 map objects = true
      · obtain ⟨extra, heq, hall⟩ := ih objects
        refine ⟨extra, ?_, ?_⟩
        · rw [placeMonsters, List.foldl_cons]
          simp only [hb, not_true_eq_false, if_false, ite_false]
          rw [← step objects]
          exact heq
        · intro o ho
          obtain ⟨hbl, dd, hdd, hxy⟩ := hall o ho
          exact ⟨hbl, dd, List.mem_cons_of_mem _ hdd, hxy⟩
      · rw [Bool.not_eq_true] at hb
        obtain ⟨extra, heq, hall⟩ := ih (objects ++ [mkMonster d.2.2 d.1 d.2.1])
        refine ⟨mkMonster d.2.2 d.1 d.2.1 :: extra, ?_, ?_⟩
        · rw [placeMonsters, List.foldl_cons]
          simp only [hb, not_false_eq_true, if_true, ite_true, Bool.false_eq_true]
          rw [← step (objects ++ [mkMonster d.2.2 d.1 d.2.1])]
          rw [heq, List.append_assoc]
          rfl
        · intro o ho
          rcases List.mem_cons.mp ho with hom | hom
          · subst hom
            refine ⟨?_, d, List.mem_cons_self _ _, mkMonster_x _ _ _,
              mkMonster_y _ _ _⟩
            rw [mkMonster_x, mkMonster_y]
            exact isBlocked_false_tile _ _ _ _ hb
          · obtain ⟨hbl, dd, hdd, hxy⟩ := hall o hom
            exact ⟨hbl, dd, List.mem_cons_of_mem _ hdd, hxy⟩

theorem placeItems_extra (map : GameMap) (objects : List Object)
    (draws : List (Int × Int × Item)) :
    ∃ extra, placeItems map objects draws = objects ++ extra ∧
      ∀ o ∈ extra, (tileAt map o.x o.y).blocked = false ∧
        ∃ d ∈ draws, o.x = d.1 ∧ o.y = d.2.1 := by
  induction draws generalizing objects with
  | nil => exact ⟨[], by simp [placeItems]⟩
  | cons d rest ih =>
      have step : ∀ start : List Object, placeItems map start rest =
          List.foldl (fun objs e =>
            if ¬ isBlocked e.1 e.2.1 map objs then
              objs ++ [mkItemObject e.2.2 e.1 e.2.1]
            else objs) start rest := fun _ => rfl
      by_cases hb : isBlocked d.1 d.2.1 map objects = true
      · obtain ⟨extra, heq, hall⟩ := ih objects
        refine ⟨extra, ?_, ?_⟩
        · rw [placeItems, List.foldl_cons]
          simp only [hb, not_true_eq_false, if_false, ite_false]
          rw [← step objects]
          exact heq
        · intro o ho
          obtain ⟨hbl, dd, hdd, hxy⟩ := hall o ho
          exact ⟨hbl, dd, List.mem_cons_of_mem _ hdd, hxy⟩
      · rw [Bool.not_eq_true] at hb
        obtain ⟨extra, heq, hall⟩ :=
          ih (objects ++ [mkItemObject d.2.2 d.1 d.2.1])
        refine ⟨mkItemObject d.2.2 d.1 d.2.1 :: extra, ?_, ?_⟩
        · rw [placeItems, List.foldl_cons]
          simp only [hb, not_false_eq_true, if_true, ite_true, Bool.false_eq_true]
          rw [← step (objects ++ [mkItemObject d.2.2 d.1 d.2.1])]
          rw [heq, List.append_assoc]
          rfl
        · intro o ho
          rcases List.mem_cons.mp ho with hom | hom
          · subst hom
            refine ⟨?_, d, List.mem_cons_self _ _, mkItemObject_x _ _ _,
              mkItemObject_y _ _ _⟩
            rw [mkItemObject_x, mkItemObject_y]
            exact isBlocked_false_tile _ _ _ _ hb
          · obtain ⟨hbl, dd, hdd, hxy⟩ := hall o hom
            exact ⟨hbl, dd, List.mem_cons_of_mem _ hdd, hxy⟩

/-- C2, amended: a spawn draw landing on a blocked cell is skipped (the room
may end up with fewer entities than the drawn counts); every entity that *is*
placed by `place_objects` stands on a map-unblocked cell inside the room
interior (it was placed only after `!is_blocked` held for its cell). -/
theorem c2_spawns_unblocked_in_room
    (map : GameMap) (room : Rect) (objects : List Object)
    (monsterDraws : List (Int × Int × MonsterKind))
    (itemDraws : List (Int × Int × Item))
    (hm : ∀ d ∈ monsterDraws, inRoomInterior room d.1 d.2.1)
    (hi : ∀ d ∈ itemDraws, inRoomInterior room d.1 d.2.1)
    (o : Object)
    (ho : o ∈ (placeObjects map objects monsterDraws itemDraws).drop
      objects.length) :
    (tileAt map o.x o.y).blocked = false ∧ inRoomInterior room o.x o.y := by
  obtain ⟨extraM, heqM, hallM⟩ := placeMonsters_extra map objects monsterDraws
  obtain ⟨extraI, heqI, hallI⟩ :=
    placeItems_extra map (objects ++ extraM) itemDraws
  rw [placeObjects, heqM, heqI, List.append_assoc, List.drop_left] at ho
  rcases List.mem_append.mp ho with hom | hom
  · obtain ⟨hbl, dd, hdd, hx, hy⟩ := hallM o hom
    refine ⟨hbl, ?_⟩
    rw [hx, hy]
    exact hm dd hdd
  · obtain ⟨hbl, dd, hdd, hx, hy⟩ := hallI o hom
    refine ⟨hbl, ?_⟩
    rw [hx, hy]
    exact hi dd hdd

/-- C2 witness: on a 3×3 floor, the single drawn orc lands on the unblocked
interior cell (1, 1). -/
theorem c2_spawns_unblocked_in_room_witness :
    (tileAt floorMap3 1 1).blocked = false ∧
    inRoomInterior (Rect.new 0 0 2 2) 1 1 :=
  c2_spawns_unblocked_in_room floorMap3 (Rect.new 0 0 2 2) []
    [(1, 1, MonsterKind.orc)] [] (by decide) (by decide)
    (mkMonster MonsterKind.orc 1 1) (by decide)

/-- `enum UseResult { UsedUp, Cancelled, UsedAndKept }`. -/
inductive UseResult where
  | usedUp
  | cancelled
  | usedAndKept
deriving DecidableEq, Repr

/-- The squared Euclidean distance between two objects.
`Object::distance_to` computes `sqrt(dx² + dy²)` as an `f32`; on the board's
integer offsets the rounded `f32` square root is strictly monotone in the
integer radicand and `6.0 = sqrt 36` is exact, so every comparison
`closest_monster` makes on distances coincides with the comparison of these
integer squares. -/
def distanceToSq (a b : Object) : Int := (b.x - a.x) ^ 2 + (b.y - a.y) ^ 2

/-- The filter of `closest_monster`'s loop: not the player slot, carrying a
Fighter and an AI, and inside the current field of view. -/
def hostileInFov (fov : Int → Int → Bool) (p : Nat × Object) : Prop :=
  p.1 ≠ 0 ∧ p.2.fighter.isSome = true ∧ p.2.ai.isSome = true ∧
    fov p.2.x p.2.y = true

instance (fov : Int → Int → Bool) (p : Nat × Object) :
    Decidable (hostileInFov fov p) := by
  unfold hostileInFov
  infer_instance

/-- One iteration of `closest_monster`'s loop over `(id, object)` pairs: the
state is `(closest_enemy, closest_dist²)`, seeded with
`(None, (max_range + 1)²)`. -/
def cmStep (player : Object) (fov : Int → Int → Bool)
    (st : Option Nat × Int) (p : Nat × Object) : Option Nat × Int :=
  if hostileInFov fov p ∧ distanceToSq player p.2 < st.2 then
    (some p.1, distanceToSq player p.2)
  else st

/-- `fn closest_monster`: the nearest FOV-visible AI-bearing Fighter other
than the player, among those strictly closer than `max_range + 1`.
(`objects[PLAYER]` is the head of the list; an empty list runs no iteration
and yields `None`, exactly as the source loop would.) -/
def closestMonster (maxRange : Int) (objects : List Object)
    (fov : Int → Int → Bool) : Option Nat :=
  match objects with
  | [] => none
  | player :: _ =>
      (objects.enum.foldl (cmStep player fov)
        (none, (maxRange + 1) ^ 2)).1

/-- `objects[PLAYER].fighter.as_mut().unwrap().xp += xp` — add an xp reward
to the player's Fighter (the head of the object list). -/
def addXpAtPlayer (objects : List Object) (xp : Int) : List Object :=
  match objects with
  | [] => []
  | p :: rest => addXpToFighter p xp :: rest

/-- The strike message of `cast_lightning`. -/
def lightningStrikeMsg (name : String) : String :=
  "A lightning bolt strikes the " ++ name ++ " with a loud thunder! " ++
    "The damage is " ++ toString LIGHTNING_DAMAGE ++ " hit points."

/-- `fn cast_lightning`: find the closest monster within `LIGHTNING_RANGE`;
if none, log the failure and return `Cancelled`; else log the strike, apply
`LIGHTNING_DAMAGE` via `take_damage`, add any returned xp reward to the
player and return `UsedUp`.  (The inner `objects.get?` never misses —
`closest_monster` only returns indices of the list; the fallback arm is
unreachable.) -/
def castLightning (objects : List Object) (g : Game)
    (fov : Int → Int → Bool) : List Object × Game × UseResult :=
  match closestMonster LIGHTNING_RANGE objects fov with
  | some monsterId =>
      match objects.get? monsterId with
      | some m =>
          let g1 := {g with log := addMsg g.log (lightningStrikeMsg m.name) LIGHT_BLUE}
          let r := takeDamage m LIGHTNING_DAMAGE g1
          let objects1 := objects.set monsterId r.1
          match r.2.2 with
          | some xp => (addXpAtPlayer objects1 xp, r.2.1, UseResult.usedUp)
          | none => (objects1, r.2.1, UseResult.usedUp)
      | none => (objects, g, UseResult.usedUp)
  | none =>
      (objects,
       {g with log := addMsg g.log "No enemy is close enough to strike." RED},
       UseResult.cancelled)

/-- What `monster_death` leaves of a monster `m` whose hp was just zeroed by
`take_damage`: glyph and color turned to remains, non-blocking, Fighter and
AI cleared, name annotated, `alive` false. -/
def monsterRemains (m : Object) : Object :=
  {m with char := '%', color := DARK_RED, blocks := false, fighter := none,
          ai := none, name := "remains of " ++ m.name, alive := false}

/-- C3, counterexample: a monster at offset (5, 3) from the player has
distance √34 ≈ 5.83 > 5, so no hostile lies within range 5 — yet
`cast_lightning` strikes it and returns `UsedUp`, because `closest_monster`
seeds its search radius with `max_range + 1 = 6`.  The claim's "Cancelled iff
none within range 5" is false on the code. -/
theorem c3_lightning_overrange_struck :
    distanceToSq (playerWithXp 0) (mkMonster MonsterKind.orc 5 3) = 34 ∧
    ¬ distanceToSq (playerWithXp 0) (mkMonster MonsterKind.orc 5 3) ≤ 5 ^ 2 ∧
    (castLightning [playerWithXp 0, mkMonster MonsterKind.orc 5 3] emptyGame
      (fun _ _ => true)).2.2 = UseResult.usedUp := by
  refine ⟨by decide, by decide, by decide⟩

/-- Loop invariant of `closest_monster`: with `init` the seeded squared
radius, after processing a prefix of `(id, object)` pairs the state is either
still `(none, init)` with every processed hostile at squared distance ≥ init,
or `(some id, d)` where `(id, o)` is a processed hostile at squared distance
`d < init` that is minimal among all processed hostiles. -/
def cmInv (player : Object) (fov : Int → Int → Bool) (init : Int)
    (processed : List (Nat × Object)) (st : Option Nat × Int) : Prop :=
  (st.1 = none → st.2 = init ∧
    ∀ p ∈ processed, hostileInFov fov p → init ≤ distanceToSq player p.2) ∧
  (∀ id, st.1 = some id → st.2 < init ∧
    (∃ o, (id, o) ∈ processed ∧ hostileInFov fov (id, o) ∧
      distanceToSq player o = st.2) ∧
    ∀ p ∈ processed, hostileInFov fov p → st.2 ≤ distanceToSq player p.2)

theorem cmStep_inv (player : Object) (fov : Int → Int → Bool) (init : Int)
    (processed : List (Nat × Object)) (st : Option Nat × Int)
    (p : Nat × Object) (h : cmInv player fov init processed st) :
    cmInv player fov init (processed ++ [p]) (cmStep player fov st p) := by
  obtain ⟨hnone, hsome⟩ := h
  have hstle : st.2 ≤ init := by
    cases hst : st.1 with
    | none => exact (hnone hst).1.le
    | some j => exact ((hsome j hst).1).le
  by_cases hc : hostileInFov fov p ∧ distanceToSq player p.2 < st.2
  · obtain ⟨hq, hlt⟩ := hc
    rw [cmStep, if_pos ⟨hq, hlt⟩]
    constructor
    · intro h'
      simp at h'
    · intro id hid
      have hidp : id = p.1 := by
        simpa using hid.symm
      subst hidp
      refine ⟨lt_of_lt_of_le hlt hstle, ⟨p.2, ?_, ?_, rfl⟩, ?_⟩
      · simp
      · simpa using hq
      · intro q hql hostq
        rcases List.mem_append.mp hql with hmem | hmem
        · cases hst : st.1 with
          | none =>
              have := (hnone hst).2 q hmem hostq
              have he := (hnone hst).1
              exact le_trans (le_of_lt (he ▸ hlt)) this
          | some j =>
              exact le_trans hlt.le ((hsome j hst).2.2 q hmem hostq)
        · rw [List.mem_singleton] at hmem
          subst hmem
          exact le_refl _
  · rw [cmStep, if_neg hc]
    constructor
    · intro hst
      obtain ⟨he, hall⟩ := hnone hst
      refine ⟨he, ?_⟩
      intro q hql hostq
      rcases List.mem_append.mp hql with hmem | hmem
      · exact hall q hmem hostq
      · rw [List.mem_singleton] at hmem
        subst hmem
        rw [← he]
        by_contra hcon
        exact hc ⟨hostq, by omega⟩
    · intro id hst
      obtain ⟨hlt, hex, hall⟩ := hsome id hst
      refine ⟨hlt, ?_, ?_⟩
      · obtain ⟨o, hmem, hrest⟩ := hex
        exact ⟨o, List.mem_append_left _ hmem, hrest⟩
      · intro q hql hostq
        rcases List.mem_append.mp hql with hmem | hmem
        · exact hall q hmem hostq
        · rw [List.mem_singleton] at hmem
          subst hmem
          by_contra hcon
          exact hc ⟨hostq, by omega⟩

theorem cmFold_inv (player : Object) (fov : Int → Int → Bool) (init : Int)
    (l processed : List (Nat × Object)) (st : Option Nat × Int)
    (h : cmInv player fov init processed st) :
    cmInv player fov init (processed ++ l)
      (l.foldl (cmStep player fov) st) := by
  induction l generalizing processed st with
  | nil => simpa using h
  | cons p rest ih =>
      have h2 := ih (processed ++ [p]) (cmStep player fov st p)
        (cmStep_inv player fov init processed st p h)
      rw [List.foldl_cons]
      simpa [List.append_assoc] using h2

theorem closestMonster_inv (maxRange : Int) (player : Object)
    (rest : List Object) (fov : Int → Int → Bool) :
    cmInv player fov ((maxRange + 1) ^ 2) ((player :: rest).enum)
      (((player :: rest).enum).foldl (cmStep player fov)
        (none, (maxRange + 1) ^ 2)) := by
  have h0 : cmInv player fov ((maxRange + 1) ^ 2) []
      (none, (maxRange + 1) ^ 2) := by
    constructor
    · intro _
      exact ⟨rfl, by simp⟩
    · intro id h
      simp at h
  simpa using cmFold_inv player fov ((maxRange + 1) ^ 2)
    ((player :: rest).enum) [] (none, (maxRange + 1) ^ 2) h0

theorem closestMonster_eq_none_iff (maxRange : Int) (player : Object)
    (rest : List Object) (fov : Int → Int → Bool) :
    closestMonster maxRange (player :: rest) fov = none ↔
      ∀ p ∈ (player :: rest).enum, hostileInFov fov p →
        (maxRange + 1) ^ 2 ≤ distanceToSq player p.2 := by
  obtain ⟨hnone, hsome⟩ := closestMonster_inv maxRange player rest fov
  have hfold : closestMonster maxRange (player :: rest) fov =
      (((player :: rest).enum).foldl (cmStep player fov)
        (none, (maxRange + 1) ^ 2)).1 := rfl
  rw [hfold]
  constructor
  · intro h p hp hostp
    exact (hnone h).2 p hp hostp
  · intro hall
    cases hres : (((player :: rest).enum).foldl (cmStep player fov)
        (none, (maxRange + 1) ^ 2)).1 with
    | none => rfl
    | some id =>
        exfalso
        obtain ⟨hlt, ⟨o, hmem, hosto, hdist⟩, _⟩ := hsome id hres
        have h2 : (maxRange + 1) ^ 2 ≤ distanceToSq player o :=
          hall (id, o) hmem hosto
        omega

theorem takeDamage_survives (o : Object) (f : Fighter) (d : Int) (g : Game)
    (hf : o.fighter = some f) (hd : 0 < d) (hs : d < f.hp) :
    takeDamage o d g = ({o with fighter := some {f with hp := f.hp - d}}, g, none) := by
  have h1 : ¬ (f.hp - d ≤ 0) := by omega
  have h2 : ¬ (f.hp ≤ d) := by omega
  simp [takeDamage, hf, hd, h1, h2, sub_nonpos]

theorem takeDamage_kills_monster (o : Object) (f : Fighter) (d : Int)
    (g : Game) (hf : o.fighter = some f) (hd : 0 < d) (hk : f.hp ≤ d)
    (hm : f.on_death = DeathCallback.monster) :
    takeDamage o d g = (monsterRemains o,
      {g with log := addMsg g.log (o.name ++ " is dead! You gain " ++ toString f.xp ++ " experience points.") ORANGE},
      some f.xp) := by
  have h1 : f.hp - d ≤ 0 := by omega
  simp [takeDamage, hf, hd, h1, sub_nonpos, hk, DeathCallback.callback, hm,
    monsterDeath, monsterRemains]

/-- C3, amended: `cast_lightning` returns `Cancelled` iff no FOV-visible
AI-bearing Fighter other than the player lies at squared distance
< (range + 1)² = 36 from the player (i.e. at f32 distance < 6 — not "within
range 5": distances in (5, 6) are still struck); otherwise the *nearest* such
Fighter takes exactly `LIGHTNING_DAMAGE` = 40 hit points of damage via
`take_damage` — on a lethal hit it becomes remains and its xp reward is added
to the player's Fighter — and the result is `UsedUp`. -/
theorem c3_lightning_amended
    (player : Object) (rest : List Object) (g : Game)
    (fov : Int → Int → Bool) :
    ((castLightning (player :: rest) g fov).2.2 = UseResult.cancelled ↔
      ∀ p ∈ (player :: rest).enum, hostileInFov fov p →
        (LIGHTNING_RANGE + 1) ^ 2 ≤ distanceToSq player p.2) ∧
    ((castLightning (player :: rest) g fov).2.2 = UseResult.cancelled →
      castLightning (player :: rest) g fov =
        (player :: rest,
         {g with log := addMsg g.log "No enemy is close enough to strike." RED},
         UseResult.cancelled)) ∧
    ∀ mid, closestMonster LIGHTNING_RANGE (player :: rest) fov = some mid →
      ∃ m fm, (player :: rest).get? mid = some m ∧ m.fighter = some fm ∧
        hostileInFov fov (mid, m) ∧
        distanceToSq player m < (LIGHTNING_RANGE + 1) ^ 2 ∧
        (∀ p ∈ (player :: rest).enum, hostileInFov fov p →
          distanceToSq player m ≤ distanceToSq player p.2) ∧
        (castLightning (player :: rest) g fov).2.2 = UseResult.usedUp ∧
        (LIGHTNING_DAMAGE < fm.hp →
          castLightning (player :: rest) g fov =
            ((player :: rest).set mid {m with fighter := some {fm with hp := fm.hp - LIGHTNING_DAMAGE}},
             {g with log := addMsg g.log (lightningStrikeMsg m.name) LIGHT_BLUE},
             UseResult.usedUp)) ∧
        (fm.hp ≤ LIGHTNING_DAMAGE → fm.on_death = DeathCallback.monster →
          castLightning (player :: rest) g fov =
            (addXpAtPlayer ((player :: rest).set mid (monsterRemains m)) fm.xp,
             {g with log := addMsg (addMsg g.log (lightningStrikeMsg m.name) LIGHT_BLUE) (m.name ++ " is dead! You gain " ++ toString fm.xp ++ " experience points.") ORANGE},
             UseResult.usedUp)) := by
  obtain ⟨hnone, hsome⟩ :=
    closestMonster_inv LIGHTNING_RANGE player rest fov
  have hfold : closestMonster LIGHTNING_RANGE (player :: rest) fov =
      (((player :: rest).enum).foldl (cmStep player fov)
        (none, (LIGHTNING_RANGE + 1) ^ 2)).1 := rfl
  have husedUp : ∀ mid,
      closestMonster LIGHTNING_RANGE (player :: rest) fov = some mid →
      (castLightning (player :: rest) g fov).2.2 = UseResult.usedUp := by
    intro mid hcm
    cases hget : (player :: rest)[mid]? with
    | none => simp [castLightning, hcm, hget]
    | some m =>
        cases h22 : (takeDamage m LIGHTNING_DAMAGE
            {g with log := addMsg g.log (lightningStrikeMsg m.name) LIGHT_BLUE}).2.2 with
        | none => simp [castLightning, hcm, hget, h22]
        | some xp => simp [castLightning, hcm, hget, h22]
  refine ⟨?_, ?_, ?_⟩
  · constructor
    · intro hcanc
      cases hcm : closestMonster LIGHTNING_RANGE (player :: rest) fov with
      | none =>
          exact (closestMonster_eq_none_iff LIGHTNING_RANGE player rest fov).mp hcm
      | some mid =>
          rw [husedUp mid hcm] at hcanc
          cases hcanc
    · intro hall
      have hcm := (closestMonster_eq_none_iff LIGHTNING_RANGE player rest fov).mpr hall
      simp [castLightning, hcm]
  · intro hcanc
    cases hcm : closestMonster LIGHTNING_RANGE (player :: rest) fov with
    | none => simp [castLightning, hcm]
    | some mid =>
        rw [husedUp mid hcm] at hcanc
        cases hcanc
  · intro mid hcm
    have hres : (((player :: rest).enum).foldl (cmStep player fov)
        (none, (LIGHTNING_RANGE + 1) ^ 2)).1 = some mid := by
      rw [← hfold]; exact hcm
    obtain ⟨hlt, ⟨m, hmem, hostm, hdist⟩, hmin⟩ := hsome mid hres
    have hget2 : (player :: rest)[mid]? = some m :=
      List.mk_mem_enum_iff_getElem?.mp hmem
    have hget : (player :: rest).get? mid = some m := by
      rw [List.get?_eq_getElem?]
      exact hget2
    obtain ⟨fm, hfm⟩ := Option.isSome_iff_exists.mp hostm.2.1
    refine ⟨m, fm, hget, hfm, hostm, ?_, ?_, husedUp mid hcm, ?_, ?_⟩
    · rw [hdist]; exact hlt
    · intro p hp hostp
      rw [hdist]; exact hmin p hp hostp
    · intro hhp
      have ht := takeDamage_survives m fm LIGHTNING_DAMAGE
        {g with log := addMsg g.log (lightningStrikeMsg m.name) LIGHT_BLUE}
        hfm (by norm_num [LIGHTNING_DAMAGE]) hhp
      simp [castLightning, hcm, hget2, ht]
    · intro hhp hmon
      have ht := takeDamage_kills_monster m fm LIGHTNING_DAMAGE
        {g with log := addMsg g.log (lightningStrikeMsg m.name) LIGHT_BLUE}
        hfm (by norm_num [LIGHTNING_DAMAGE]) hhp hmon
      simp [castLightning, hcm, hget2, ht]

/-- C3 witness: an orc at squared distance 5 < 36 from the player is struck
and the scroll is used up. -/
theorem c3_lightning_amended_witness :
    (castLightning [playerWithXp 0, mkMonster MonsterKind.orc 2 1] emptyGame
      (fun _ _ => true)).2.2 = UseResult.usedUp := by
  obtain ⟨m, fm, hget, hfm, hhost, hdist, hmin, hused, hrest⟩ :=
    (c3_lightning_amended (playerWithXp 0) [mkMonster MonsterKind.orc 2 1]
      emptyGame (fun _ _ => true)).2.2 1 (by decide)
  exact hused

/-- `Object::equip`: refuse (with a message) when there is no Item record or
no Equipment record; otherwise set the `equipped` flag (if not already set)
and log the "Equipped" message.  The source's refusal messages format the
whole object with `{:?}`; here they carry the object's name. -/
def equip (o : Object) (log : Messages) : Object × Messages :=
  if o.item.isNone then
    (o, addMsg log ("Can't equip " ++ o.name ++ " because it's not an Item.") RED)
  else
    match o.equipment with
    | some e =>
        if e.equipped = false then
          ({o with equipment := some {e with equipped := true}},
           addMsg log ("Equipped " ++ o.name ++ " on " ++ slotName e.slot ++ ".") LIGHT_GREEN)
        else (o, log)
    | none =>
        (o, addMsg log ("Can't equip " ++ o.name ++ " because it's not an Equipment.") RED)

/-- `Object::dequip`: the mirror image of `equip`. -/
def dequip (o : Object) (log : Messages) : Object × Messages :=
  if o.item.isNone then
    (o, addMsg log ("Can't dequip " ++ o.name ++ " because it's not an Item.") RED)
  else
    match o.equipment with
    | some e =>
        if e.equipped = true then
          ({o with equipment := some {e with equipped := false}},
           addMsg log ("Dequipped " ++ o.name ++ " from " ++ slotName e.slot ++ ".") LIGHT_YELLOW)
        else (o, log)
    | none =>
        (o, addMsg log ("Can't dequip " ++ o.name ++ " because it's not an Equipment.") RED)

/-- The predicate of `get_equipped_in_slot`'s loop:
`item.equipment.map_or(false, |e| e.equipped && e.slot == slot)`. -/
def isEquippedIn (slot : Slot) (o : Object) : Bool :=
  (o.equipment.map fun e => e.equipped && decide (e.slot = slot)).getD false

/-- `fn get_equipped_in_slot`: first inventory index equipped in `slot`. -/
def getEquippedInSlot (slot : Slot) (inventory : List Object) : Option Nat :=
  inventory.findIdx? (isEquippedIn slot)

/-- `game.inventory[i].equip(&mut game.log)` (out-of-range panics in the
source; all callers pass valid indices). -/
def equipAt (inventory : List Object) (log : Messages) (i : Nat) :
    List Object × Messages :=
  match inventory[i]? with
  | some o =>
      let r := equip o log
      (inventory.set i r.1, r.2)
  | none => (inventory, log)

/-- `game.inventory[i].dequip(&mut game.log)`. -/
def dequipAt (inventory : List Object) (log : Messages) (i : Nat) :
    List Object × Messages :=
  match inventory[i]? with
  | some o =>
      let r := dequip o log
      (inventory.set i r.1, r.2)
  | none => (inventory, log)

/-- `fn toggle_equipment`: Cancelled when the item has no Equipment record;
dequip it when equipped; otherwise dequip any occupant of its slot and then
equip it; always UsedAndKept in the equipment cases. -/
def toggleEquipment (inventoryId : Nat) (g : Game) : Game × UseResult :=
  match g.inventory[inventoryId]?.bind Object.equipment with
  | none => (g, UseResult.cancelled)
  | some equipment =>
      if equipment.equipped then
        let r := dequipAt g.inventory g.log inventoryId
        ({g with inventory := r.1, log := r.2}, UseResult.usedAndKept)
      else
        let r0 :=
          match getEquippedInSlot equipment.slot g.inventory with
          | some oldEquipment => dequipAt g.inventory g.log oldEquipment
          | none => (g.inventory, g.log)
        let r := equipAt r0.1 r0.2 inventoryId
        ({g with inventory := r.1, log := r.2}, UseResult.usedAndKept)

/-- How many inventory items are equipped in `slot`. -/
def slotCount (slot : Slot) (inv : List Object) : Nat :=
  inv.countP (isEquippedIn slot)

theorem countP_set_add {α : Type} (p : α → Bool) (l : List α) (i : Nat)
    (o a : α) (h : l[i]? = some o) :
    (l.set i a).countP p + (if p o then 1 else 0) =
      l.countP p + (if p a then 1 else 0) := by
  induction l generalizing i with
  | nil => simp at h
  | cons x xs ih =>
      cases i with
      | zero =>
          simp only [List.getElem?_cons_zero, Option.some.injEq] at h
          subst h
          cases hpa : p a <;> cases hpo : p x <;>
            simp [List.countP_cons, hpa, hpo, List.set] <;> omega
      | succ n =>
          simp only [List.getElem?_cons_succ] at h
          have hh := ih n h
          cases hpa : p a <;> cases hpo : p o <;> cases hpx : p x <;>
            simp [List.countP_cons, hpa, hpo, hpx, List.set] at hh ⊢ <;> omega

theorem equip_unequipped (o : Object) (e : Equipment) (log : Messages)
    (hitem : o.item.isSome = true) (heq : o.equipment = some e)
    (hne : e.equipped = false) :
    equip o log = ({o with equipment := some {e with equipped := true}},
      addMsg log ("Equipped " ++ o.name ++ " on " ++ slotName e.slot ++ ".") LIGHT_GREEN) := by
  have hno : o.item.isNone = false := by cases hoi : o.item <;> simp_all
  simp [equip, hno, heq, hne]

theorem dequip_equipped (o : Object) (e : Equipment) (log : Messages)
    (hitem : o.item.isSome = true) (heq : o.equipment = some e)
    (he : e.equipped = true) :
    dequip o log = ({o with equipment := some {e with equipped := false}},
      addMsg log ("Dequipped " ++ o.name ++ " from " ++ slotName e.slot ++ ".") LIGHT_YELLOW) := by
  have hno : o.item.isNone = false := by cases hoi : o.item <;> simp_all
  simp [dequip, hno, heq, he]

/-- C7: toggling preserves "at most one equipped item per slot" and always
returns UsedAndKept; an equipped item is dequipped; an unequipped item is
equipped after the slot's occupant (if any) is dequipped, leaving the new
item as the slot's only equipped occupant. -/
theorem c7_toggle_equipment_slot_invariant
    (g : Game) (id : Nat) (o : Object) (e : Equipment)
    (hid : g.inventory[id]? = some o)
    (hitem : o.item.isSome = true)
    (heq : o.equipment = some e)
    (hitems : ∀ q ∈ g.inventory, q.item.isSome = true)
    (hinv : ∀ s, slotCount s g.inventory ≤ 1) :
    (toggleEquipment id g).2 = UseResult.usedAndKept ∧
    (∀ s, slotCount s (toggleEquipment id g).1.inventory ≤ 1) ∧
    (e.equipped = true →
      (toggleEquipment id g).1.inventory[id]? =
        some {o with equipment := some {e with equipped := false}}) ∧
    (e.equipped = false →
      (toggleEquipment id g).1.inventory[id]? =
        some {o with equipment := some {e with equipped := true}} ∧
      slotCount e.slot (toggleEquipment id g).1.inventory = 1) := by
  have hbind : g.inventory[id]?.bind Object.equipment = some e := by
    rw [hid]
    simp [heq]
  have hlen : id < g.inventory.length := by
    by_contra hcon
    rw [List.getElem?_eq_none (by omega)] at hid
    cases hid
  cases he : e.equipped with
  | true =>
      have hdeq := dequip_equipped o e g.log hitem heq he
      have htog : toggleEquipment id g =
          ({g with inventory := g.inventory.set id {o with equipment := some {e with equipped := false}}, log := addMsg g.log ("Dequipped " ++ o.name ++ " from " ++ slotName e.slot ++ ".") LIGHT_YELLOW},
           UseResult.usedAndKept) := by
        simp [toggleEquipment, hbind, heq, he, dequipAt, hid, hdeq]
      refine ⟨by rw [htog], ?_, ?_, ?_⟩
      · intro s
        have hc := countP_set_add (isEquippedIn s) g.inventory id o
          {o with equipment := some {e with equipped := false}} hid
        have hpo2 : isEquippedIn s {o with equipment := some {e with equipped := false}} = false := by
          simp [isEquippedIn]
        have h1 := hinv s
        rw [htog]
        simp only [slotCount] at h1 ⊢
        cases hpo : isEquippedIn s o <;> simp [hpo, hpo2] at hc <;> omega
      · intro _
        rw [htog]
        simp [List.getElem?_set_self hlen]
      · intro hfalse
        simp at hfalse
  | false =>
      cases hocc : getEquippedInSlot e.slot g.inventory with
      | none =>
          have hequip := equip_unequipped o e g.log hitem heq he
          have htog : toggleEquipment id g =
              ({g with inventory := g.inventory.set id {o with equipment := some {e with equipped := true}}, log := addMsg g.log ("Equipped " ++ o.name ++ " on " ++ slotName e.slot ++ ".") LIGHT_GREEN},
               UseResult.usedAndKept) := by
            simp [toggleEquipment, hbind, heq, he, hocc, equipAt, hid, hequip]
          have hzero : slotCount e.slot g.inventory = 0 := by
            rw [slotCount, List.countP_eq_zero]
            intro q hq
            have hq2 := List.findIdx?_eq_none_iff.mp hocc q hq
            simp [hq2]
          have hcnt : ∀ s, slotCount s
              (g.inventory.set id {o with equipment := some {e with equipped := true}}) =
              slotCount s g.inventory + (if e.slot = s then 1 else 0) := by
            intro s
            have hc := countP_set_add (isEquippedIn s) g.inventory id o
              {o with equipment := some {e with equipped := true}} hid
            have hpo : isEquippedIn s o = false := by simp [isEquippedIn, heq, he]
            have hpo2 : isEquippedIn s {o with equipment := some {e with equipped := true}} =
                decide (e.slot = s) := by simp [isEquippedIn]
            rw [hpo, hpo2] at hc
            simp only [slotCount]
            by_cases hs : e.slot = s <;> simp [hs] at hc ⊢ <;> omega
          refine ⟨by rw [htog], ?_, ?_, ?_⟩
          · intro s
            rw [htog]
            simp only
            rw [hcnt s]
            by_cases hs : e.slot = s
            · subst hs
              rw [hzero]
              simp
            · simp [hs]
              exact hinv s
          · intro hfalse
            simp at hfalse
          · intro _
            rw [htog]
            constructor
            · simp [List.getElem?_set_self hlen]
            · simp only
              rw [hcnt e.slot, hzero]
              simp
      | some j =>
          obtain ⟨hjlt, hpj, hbefore⟩ :=
            List.findIdx?_eq_some_iff_getElem.mp hocc
          have hjq : g.inventory[j]? = some g.inventory[j] :=
            List.getElem?_eq_getElem hjlt
          have hne : j ≠ id := by
            intro hji
            subst hji
            rw [hjq] at hid
            have hoj : g.inventory[j] = o := by
              injection hid
            rw [hoj] at hpj
            rw [isEquippedIn, heq] at hpj
            simp [he] at hpj
          obtain ⟨eq', hqe⟩ : ∃ eq', g.inventory[j].equipment = some eq' := by
            cases hqe : g.inventory[j].equipment with
            | none => rw [isEquippedIn, hqe] at hpj; simp at hpj
            | some eq' => exact ⟨eq', rfl⟩
          have hpj' : eq'.equipped = true ∧ eq'.slot = e.slot := by
            rw [isEquippedIn, hqe] at hpj
            simpa using hpj
          have hqitem : g.inventory[j].item.isSome = true :=
            hitems _ (List.getElem_mem hjlt)
          have hdeq := dequip_equipped g.inventory[j] eq' g.log hqitem hqe hpj'.1
          have hset : (g.inventory.set j
              {g.inventory[j] with equipment := some {eq' with equipped := false}})[id]? =
              some o := by
            rw [List.getElem?_set_ne hne]
            exact hid
          have hequip := equip_unequipped o e
            (addMsg g.log ("Dequipped " ++ g.inventory[j].name ++ " from " ++ slotName eq'.slot ++ ".") LIGHT_YELLOW)
            hitem heq he
          have htog : toggleEquipment id g =
              ({g with inventory := (g.inventory.set j {g.inventory[j] with equipment := some {eq' with equipped := false}}).set id {o with equipment := some {e with equipped := true}}, log := addMsg (addMsg g.log ("Dequipped " ++ g.inventory[j].name ++ " from " ++ slotName eq'.slot ++ ".") LIGHT_YELLOW) ("Equipped " ++ o.name ++ " on " ++ slotName e.slot ++ ".") LIGHT_GREEN},
               UseResult.usedAndKept) := by
            simp [toggleEquipment, hbind, heq, he, hocc, dequipAt, hjq, hdeq,
              equipAt, hset, hequip]
          have hcnt1 : ∀ s, slotCount s
              (g.inventory.set j {g.inventory[j] with equipment := some {eq' with equipped := false}}) +
              (if e.slot = s then 1 else 0) = slotCount s g.inventory := by
            intro s
            have hc := countP_set_add (isEquippedIn s) g.inventory j
              g.inventory[j]
              {g.inventory[j] with equipment := some {eq' with equipped := false}} hjq
            have hpq : isEquippedIn s g.inventory[j] = decide (e.slot = s) := by
              simp [isEquippedIn, hqe, hpj'.1, hpj'.2]
            have hpq2 : isEquippedIn s
                {g.inventory[j] with equipment := some {eq' with equipped := false}} = false := by
              simp [isEquippedIn]
            rw [hpq, hpq2] at hc
            simp only [slotCount]
            by_cases hs : e.slot = s <;> simp [hs] at hc ⊢ <;> omega
          have hcnt2 : ∀ s, slotCount s
              ((g.inventory.set j {g.inventory[j] with equipment := some {eq' with equipped := false}}).set id
                {o with equipment := some {e with equipped := true}}) =
              slotCount s
                (g.inventory.set j {g.inventory[j] with equipment := some {eq' with equipped := false}}) +
              (if e.slot = s then 1 else 0) := by
            intro s
            have hc := countP_set_add (isEquippedIn s)
              (g.inventory.set j {g.inventory[j] with equipment := some {eq' with equipped := false}})
              id o {o with equipment := some {e with equipped := true}} hset
            have hpo : isEquippedIn s o = false := by simp [isEquippedIn, heq, he]
            have hpo2 : isEquippedIn s {o with equipment := some {e with equipped := true}} =
                decide (e.slot = s) := by simp [isEquippedIn]
            rw [hpo, hpo2] at hc
            simp only [slotCount]
            by_cases hs : e.slot = s <;> simp [hs] at hc ⊢ <;> omega
          have hone : slotCount e.slot g.inventory = 1 := by
            have hpos : 0 < slotCount e.slot g.inventory := by
              rw [slotCount, List.countP_pos_iff]
              exact ⟨g.inventory[j], List.getElem_mem hjlt, hpj⟩
            have := hinv e.slot
            omega
          refine ⟨by rw [htog], ?_, ?_, ?_⟩
          · intro s
            rw [htog]
            simp only
            rw [hcnt2 s]
            have h1 := hcnt1 s
            have h2 := hinv s
            by_cases hs : e.slot = s <;> simp [hs] at h1 ⊢ <;> omega
          · intro hfalse
            simp at hfalse
          · intro _
            rw [htog]
            constructor
            · have hlen2 : id <
                  (g.inventory.set j {g.inventory[j] with equipment := some {eq' with equipped := false}}).length := by
                rw [List.length_set]
                exact hlen
              simp [List.getElem?_set_self hlen2]
            · simp only
              rw [hcnt2 e.slot]
              have h1 := hcnt1 e.slot
              have h2 := hone
              simp at h1 ⊢
              omega

/-- The starting dagger of `new_game`: equipped in the left hand. -/
def daggerA : Object :=
  { x := 0, y := 0, char := '-', color := SKY, name := "dagger",
    blocks := false, alive := false, fighter := none, ai := none,
    item := some Item.sword, always_visible := false, level := 1,
    equipment := some { slot := Slot.leftHand, equipped := true,
                        max_hp_bonus := 0, power_bonus := 2,
                        defense_bonus := 0 } }

/-- A second left-hand item, not yet equipped. -/
def shieldB : Object :=
  { x := 0, y := 0, char := '[', color := DARKER_ORANGE, name := "shield",
    blocks := false, alive := false, fighter := none, ai := none,
    item := some Item.shield, always_visible := false, level := 1,
    equipment := some { slot := Slot.leftHand, equipped := false,
                        max_hp_bonus := 0, power_bonus := 0,
                        defense_bonus := 1 } }

def eqGame : Game := ⟨[], [], [daggerA, shieldB], 1⟩

/-- C7 witness: with A equipped in LeftHand, toggling B (also LeftHand)
returns UsedAndKept and leaves exactly one LeftHand item equipped — B. -/
theorem c7_toggle_equipment_slot_invariant_witness :
    (toggleEquipment 1 eqGame).2 = UseResult.usedAndKept ∧
    slotCount Slot.leftHand (toggleEquipment 1 eqGame).1.inventory = 1 := by
  obtain ⟨h1, h2, h3, h4⟩ := c7_toggle_equipment_slot_invariant eqGame 1
    shieldB { slot := Slot.leftHand, equipped := false, max_hp_bonus := 0,
              power_bonus := 0, defense_bonus := 1 }
    rfl rfl rfl (by decide) (by intro s; cases s <;> decide)
  exact ⟨h1, (h4 rfl).2⟩

/-- `Vec::swap_remove(i)`: remove index `i`, moving the last element into its
place (out-of-range panics in the source; callers pass valid indices). -/
def swapRemove {α : Type} (l : List α) (i : Nat) : List α :=
  match l.getLast? with
  | some a => (l.set i a).dropLast
  | none => l

/-- `fn pick_item_up`: refuse when the inventory holds 26 items; otherwise
swap-remove the object from the store, push it onto the inventory, and — when
it carries an Equipment record whose slot has no equipped occupant — equip it
automatically. -/
def pickItemUp (objectId : Nat) (objects : List Object) (g : Game) :
    List Object × Game :=
  if g.inventory.length ≥ 26 then
    (objects, {g with log := addMsg g.log ("Your inventory is full, cannot pick up " ++ nameAt objects objectId ++ ".") RED})
  else
    match objects[objectId]? with
    | some item =>
        let objects1 := swapRemove objects objectId
        let log1 := addMsg g.log ("You picked up a " ++ item.name ++ "!") GREEN
        let index := g.inventory.length
        let slot := item.equipment.map Equipment.slot
        let inventory1 := g.inventory ++ [item]
        match slot with
        | some slot =>
            if (getEquippedInSlot slot inventory1).isNone then
              let r := equipAt inventory1 log1 index
              (objects1, {g with inventory := r.1, log := r.2})
            else
              (objects1, {g with inventory := inventory1, log := log1})
        | none => (objects1, {g with inventory := inventory1, log := log1})
    | none => (objects, g)

theorem set_concat_length {α : Type} (l : List α) (a b : α) :
    (l ++ [a]).set l.length b = l ++ [b] := by
  induction l with
  | nil => rfl
  | cons x xs ih => simp [List.set, ih]

/-- C10: picking up an item that carries an Equipment record (capacity
permitting, item unequipped as all floor items are): when no inventory item
is equipped in its slot, it is pushed and automatically equipped, logging
both the pickup and the "Equipped" message; when the slot is occupied it is
pushed unequipped, logging only the pickup message. -/
theorem c10_pickup_autoequip
    (objectId : Nat) (objects : List Object) (g : Game)
    (item : Object) (e : Equipment)
    (hid : objects[objectId]? = some item)
    (hitem : item.item.isSome = true)
    (heq : item.equipment = some e)
    (hne : e.equipped = false)
    (hcap : g.inventory.length < 26) :
    (getEquippedInSlot e.slot g.inventory = none →
      (pickItemUp objectId objects g).2.inventory =
        g.inventory ++ [{item with equipment := some {e with equipped := true}}] ∧
      (pickItemUp objectId objects g).2.log =
        addMsg (addMsg g.log ("You picked up a " ++ item.name ++ "!") GREEN) ("Equipped " ++ item.name ++ " on " ++ slotName e.slot ++ ".") LIGHT_GREEN ∧
      (pickItemUp objectId objects g).1 = swapRemove objects objectId) ∧
    (∀ j, getEquippedInSlot e.slot g.inventory = some j →
      (pickItemUp objectId objects g).2.inventory = g.inventory ++ [item] ∧
      (pickItemUp objectId objects g).2.log =
        addMsg g.log ("You picked up a " ++ item.name ++ "!") GREEN ∧
      (pickItemUp objectId objects g).1 = swapRemove objects objectId) := by
  have hncap : ¬ (g.inventory.length ≥ 26) := by omega
  constructor
  · intro hocc
    have happ : getEquippedInSlot e.slot (g.inventory ++ [item]) = none := by
      rw [getEquippedInSlot, List.findIdx?_eq_none_iff]
      intro q hq
      rcases List.mem_append.mp hq with h | h
      · exact List.findIdx?_eq_none_iff.mp hocc q h
      · rw [List.mem_singleton] at h
        subst h
        simp [isEquippedIn, heq, hne]
    have hgetidx : (g.inventory ++ [item])[g.inventory.length]? = some item := by
      simp
    have hequip := equip_unequipped item e
      (addMsg g.log ("You picked up a " ++ item.name ++ "!") GREEN) hitem heq hne
    refine ⟨?_, ?_, ?_⟩ <;>
      simp [pickItemUp, hncap, hid, heq, happ, equipAt, hgetidx, hequip,
        set_concat_length]
  · intro j hj
    have happ : (getEquippedInSlot e.slot (g.inventory ++ [item])).isNone = false := by
      cases hfi : getEquippedInSlot e.slot (g.inventory ++ [item]) with
      | some _ => rfl
      | none =>
          exfalso
          obtain ⟨hjlt, hpj, _⟩ := List.findIdx?_eq_some_iff_getElem.mp hj
          have hfalse := List.findIdx?_eq_none_iff.mp hfi g.inventory[j]
            (List.mem_append_left _ (List.getElem_mem hjlt))
          rw [hpj] at hfalse
          cases hfalse
    refine ⟨?_, ?_, ?_⟩ <;> simp [pickItemUp, hncap, hid, heq, happ]

/-- C10 witness: picking up an unequipped left-hand shield into an inventory
with no left-hand occupant auto-equips it. -/
theorem c10_pickup_autoequip_witness :
    (pickItemUp 0 [shieldB] emptyGame).2.inventory =
      [{shieldB with equipment := some { slot := Slot.leftHand, equipped := true, max_hp_bonus := 0, power_bonus := 0, defense_bonus := 1 }}] :=
  ((c10_pickup_autoequip 0 [shieldB] emptyGame shieldB
    { slot := Slot.leftHand, equipped := false, max_hp_bonus := 0,
      power_bonus := 0, defense_bonus := 1 }
    rfl rfl rfl rfl (by decide)).1 rfl).1

/-- Modelled from the spec: the Persistence Codec (§4.7).  `save_game` and
`load_game` delegate the actual byte layout to the external `serde_json`
library (derived `Serialize`/`Deserialize` instances on the types above and
a file write/read); that library code is not part of this repository.  The
codec is modelled here as a structured, human-readable document tree holding
the serialized tuple `(objects, game)`, faithful to the spec's contract:
every Entity's full capability set (including nested recursive AI state),
the tile grid with explored flags, the message log, the inventory and the
dungeon level counter are all preserved. -/
inductive Doc where
  | bool : Bool → Doc
  | int : Int → Doc
  | nat : Nat → Doc
  | str : String → Doc
  | arr : List Doc → Doc

def encodeChar (c : Char) : Doc := Doc.str ⟨[c]⟩

def decodeChar : Doc → Option Char
  | Doc.str s =>
      match s.data with
      | [c] => some c
      | _ => none
  | _ => none

def encodeColor (c : Color) : Doc := Doc.arr [Doc.nat c.r, Doc.nat c.g, Doc.nat c.b]

def decodeColor : Doc → Option Color
  | Doc.arr [Doc.nat r, Doc.nat g, Doc.nat b] => some ⟨r, g, b⟩
  | _ => none

def encodeDeath : DeathCallback → Doc
  | DeathCallback.player => Doc.str "Player"
  | DeathCallback.monster => Doc.str "Monster"

def decodeDeath : Doc → Option DeathCallback
  | Doc.str "Player" => some DeathCallback.player
  | Doc.str "Monster" => some DeathCallback.monster
  | _ => none

def encodeFighter (f : Fighter) : Doc :=
  Doc.arr [Doc.int f.hp, Doc.int f.base_max_hp, Doc.int f.base_defense,
    Doc.int f.base_power, encodeDeath f.on_death, Doc.int f.xp]

def decodeFighter : Doc → Option Fighter
  | Doc.arr [Doc.int hp, Doc.int bmh, Doc.int bd, Doc.int bp, d, Doc.int xp] =>
      (decodeDeath d).map fun od => ⟨hp, bmh, bd, bp, od, xp⟩
  | _ => none

/-- The `Confused` chain of an AI state as its list of `num_turns` payloads
(the only leaf is `Basic`, so this is a faithful representation of the
recursive state). -/
def aiTurnsList : Ai → List Int
  | Ai.basic => []
  | Ai.confused prev n => n :: aiTurnsList prev

def listToAi : List Int → Ai
  | [] => Ai.basic
  | n :: rest => Ai.confused (listToAi rest) n

def encodeAi (a : Ai) : Doc := Doc.arr ((aiTurnsList a).map Doc.int)

def decodeIntList : List Doc → Option (List Int)
  | [] => some []
  | Doc.int n :: rest => (decodeIntList rest).map fun l => n :: l
  | _ => none

def decodeAi : Doc → Option Ai
  | Doc.arr l => (decodeIntList l).map listToAi
  | _ => none

def encodeItem : Item → Doc
  | Item.heal => Doc.str "Heal"
  | Item.lightning => Doc.str "Lightning"
  | Item.confuse => Doc.str "Confuse"
  | Item.fireball => Doc.str "Fireball"
  | Item.sword => Doc.str "Sword"
  | Item.shield => Doc.str "Shield"

def decodeItem : Doc → Option Item
  | Doc.str "Heal" => some Item.heal
  | Doc.str "Lightning" => some Item.lightning
  | Doc.str "Confuse" => some Item.confuse
  | Doc.str "Fireball" => some Item.fireball
  | Doc.str "Sword" => some Item.sword
  | Doc.str "Shield" => some Item.shield
  | _ => none

def encodeSlot : Slot → Doc
  | Slot.leftHand => Doc.str "LeftHand"
  | Slot.rightHand => Doc.str "RightHand"
  | Slot.head => Doc.str "Head"

def decodeSlot : Doc → Option Slot
  | Doc.str "LeftHand" => some Slot.leftHand
  | Doc.str "RightHand" => some Slot.rightHand
  | Doc.str "Head" => some Slot.head
  | _ => none

def encodeEquipment (e : Equipment) : Doc :=
  Doc.arr [encodeSlot e.slot, Doc.bool e.equipped, Doc.int e.max_hp_bonus,
    Doc.int e.power_bonus, Doc.int e.defense_bonus]

def decodeEquipment : Doc → Option Equipment
  | Doc.arr [s, Doc.bool eqd, Doc.int mhb, Doc.int pb, Doc.int db] =>
      (decodeSlot s).map fun slot => ⟨slot, eqd, mhb, pb, db⟩
  | _ => none

def encodeOpt {α : Type} (enc : α → Doc) : Option α → Doc
  | none => Doc.arr []
  | some a => Doc.arr [enc a]

def decodeOpt {α : Type} (dec : Doc → Option α) : Doc → Option (Option α)
  | Doc.arr [] => some none
  | Doc.arr [d] => (dec d).map some
  | _ => none

def encodeTile (t : Tile) : Doc :=
  Doc.arr [Doc.bool t.blocked, Doc.bool t.block_sight, Doc.bool t.explored]

def decodeTile : Doc → Option Tile
  | Doc.arr [Doc.bool b, Doc.bool bs, Doc.bool e] => some ⟨b, bs, e⟩
  | _ => none

def decodeListWith {α : Type} (dec : Doc → Option α) : List Doc → Option (List α)
  | [] => some []
  | d :: ds =>
      match dec d, decodeListWith dec ds with
      | some a, some as => some (a :: as)
      | _, _ => none

def encodeMsg (p : String × Color) : Doc := Doc.arr [Doc.str p.1, encodeColor p.2]

def decodeMsg : Doc → Option (String × Color)
  | Doc.arr [Doc.str s, c] => (decodeColor c).map fun col => (s, col)
  | _ => none

def encodeObject (o : Object) : Doc :=
  Doc.arr [Doc.int o.x, Doc.int o.y, encodeChar o.char, encodeColor o.color,
    Doc.str o.name, Doc.bool o.blocks, Doc.bool o.alive,
    encodeOpt encodeFighter o.fighter, encodeOpt encodeAi o.ai,
    encodeOpt encodeItem o.item, Doc.bool o.always_visible, Doc.int o.level,
    encodeOpt encodeEquipment o.equipment]

def decodeObject : Doc → Option Object
  | Doc.arr [Doc.int x, Doc.int y, c, col, Doc.str name, Doc.bool blocks,
      Doc.bool alive, fd, ad, itd, Doc.bool av, Doc.int lvl, eqd] =>
      match decodeChar c, decodeColor col, decodeOpt decodeFighter fd,
          decodeOpt decodeAi ad, decodeOpt decodeItem itd,
          decodeOpt decodeEquipment eqd with
      | some ch, some color, some fighter, some ai, some item, some equipment =>
          some ⟨x, y, ch, color, name, blocks, alive, fighter, ai, item, av,
            lvl, equipment⟩
      | _, _, _, _, _, _ => none
  | _ => none

def encodeRow (r : List Tile) : Doc := Doc.arr (r.map encodeTile)

def decodeRow : Doc → Option (List Tile)
  | Doc.arr l => decodeListWith decodeTile l
  | _ => none

def encodeGame (g : Game) : Doc :=
  Doc.arr [Doc.arr (g.map.map encodeRow),
    Doc.arr (g.log.map encodeMsg),
    Doc.arr (g.inventory.map encodeObject),
    Doc.nat g.dungeon_level]

def decodeGame : Doc → Option Game
  | Doc.arr [Doc.arr rows, Doc.arr msgs, Doc.arr invDocs, Doc.nat lvl] =>
      match decodeListWith decodeRow rows, decodeListWith decodeMsg msgs,
          decodeListWith decodeObject invDocs with
      | some map, some log, some inventory => some ⟨map, log, inventory, lvl⟩
      | _, _, _ => none
  | _ => none

/-- `fn save_game`: serialize the tuple `(objects, game)` into one document. -/
def saveGame (objects : List Object) (g : Game) : Doc :=
  Doc.arr [Doc.arr (objects.map encodeObject), encodeGame g]

/-- `fn load_game`: deserialize the tuple back (a malformed document is a
recoverable `none`, never a crash). -/
def loadGame : Doc → Option (List Object × Game)
  | Doc.arr [Doc.arr objDocs, gameDoc] =>
      match decodeListWith decodeObject objDocs, decodeGame gameDoc with
      | some objs, some game => some (objs, game)
      | _, _ => none
  | _ => none

theorem decodeChar_encodeChar (c : Char) : decodeChar (encodeChar c) = some c := rfl

theorem decodeColor_encodeColor (c : Color) :
    decodeColor (encodeColor c) = some c := rfl

theorem decodeDeath_encodeDeath (d : DeathCallback) :
    decodeDeath (encodeDeath d) = some d := by
  cases d <;> rfl

theorem decodeFighter_encodeFighter (f : Fighter) :
    decodeFighter (encodeFighter f) = some f := by
  cases f with
  | mk hp bmh bd bp od xp => cases od <;> rfl

theorem decodeIntList_map (l : List Int) :
    decodeIntList (l.map Doc.int) = some l := by
  induction l with
  | nil => rfl
  | cons n rest ih => simp [decodeIntList, ih]

theorem listToAi_aiTurnsList (a : Ai) : listToAi (aiTurnsList a) = a := by
  induction a with
  | basic => rfl
  | confused prev n ih => simp [aiTurnsList, listToAi, ih]

theorem decodeAi_encodeAi (a : Ai) : decodeAi (encodeAi a) = some a := by
  rw [encodeAi, decodeAi, decodeIntList_map, Option.map_some']
  rw [listToAi_aiTurnsList]

theorem decodeItem_encodeItem (it : Item) :
    decodeItem (encodeItem it) = some it := by
  cases it <;> rfl

theorem decodeSlot_encodeSlot (s : Slot) : decodeSlot (encodeSlot s) = some s := by
  cases s <;> rfl

theorem decodeEquipment_encodeEquipment (e : Equipment) :
    decodeEquipment (encodeEquipment e) = some e := by
  cases e with
  | mk s eqd mhb pb db => cases s <;> rfl

theorem decodeOpt_encodeOpt {α : Type} (enc : α → Doc) (dec : Doc → Option α)
    (h : ∀ a, dec (enc a) = some a) :
    ∀ oa, decodeOpt dec (encodeOpt enc oa) = some oa := by
  intro oa
  cases oa with
  | none => rfl
  | some a =>
      show (dec (enc a)).map some = some (some a)
      rw [h a]
      rfl

theorem decodeTile_encodeTile (t : Tile) : decodeTile (encodeTile t) = some t := rfl

theorem decodeListWith_map {α : Type} (enc : α → Doc) (dec : Doc → Option α)
    (h : ∀ a, dec (enc a) = some a) :
    ∀ l, decodeListWith dec (l.map enc) = some l := by
  intro l
  induction l with
  | nil => rfl
  | cons a rest ih => simp [decodeListWith, h a, ih]

theorem decodeMsg_encodeMsg (p : String × Color) :
    decodeMsg (encodeMsg p) = some p := rfl

theorem decodeRow_encodeRow (r : List Tile) :
    decodeRow (encodeRow r) = some r := by
  rw [encodeRow, decodeRow]
  exact decodeListWith_map encodeTile decodeTile decodeTile_encodeTile r

theorem decodeObject_encodeObject (o : Object) :
    decodeObject (encodeObject o) = some o := by
  cases o with
  | mk x y ch col name blocks alive fighter ai item av lvl equip =>
      simp [encodeObject, decodeObject, decodeChar_encodeChar,
        decodeColor_encodeColor,
        decodeOpt_encodeOpt encodeFighter decodeFighter decodeFighter_encodeFighter,
        decodeOpt_encodeOpt encodeAi decodeAi decodeAi_encodeAi,
        decodeOpt_encodeOpt encodeItem decodeItem decodeItem_encodeItem,
        decodeOpt_encodeOpt encodeEquipment decodeEquipment decodeEquipment_encodeEquipment]

theorem decodeGame_encodeGame (g : Game) : decodeGame (encodeGame g) = some g := by
  cases g with
  | mk map log inventory lvl =>
      simp [encodeGame, decodeGame,
        decodeListWith_map encodeRow decodeRow decodeRow_encodeRow,
        decodeListWith_map encodeMsg decodeMsg decodeMsg_encodeMsg,
        decodeListWith_map encodeObject decodeObject decodeObject_encodeObject]

/-- C8: loading immediately after saving reproduces the identical state —
every entity (with its full capability records, including the nested
recursive AI state), the tile grid with explored flags, the message log, the
inventory and the dungeon level counter. -/
theorem c8_save_load_roundtrip (objects : List Object) (g : Game) :
    loadGame (saveGame objects g) = some (objects, g) := by
  simp [saveGame, loadGame,
    decodeListWith_map encodeObject decodeObject decodeObject_encodeObject,
    decodeGame_encodeGame]
